import Mathlib

/-!
# solar_calculator: calendar and sun-time routines of `solar_calculator.c`

The C functions are embedded as Lean functions of the same name.

* C `int` values are integers (`Int`) in the range of a 32-bit `int`.  C's `/`
  and `%` on `int` truncate toward zero, so they are `Int.tdiv` and
  `Int.tmod` here.  Where a sum, difference or product can leave the 32-bit
  range for a value the program accepts (the years given to `day_of_week`
  through `is_central_europe_dst`, the year counter of `insert_entries`), the
  operation is followed by `wrap32`, the two's complement wrap-around.
* C `double` values stay abstract: `calc_sun_time` is written over a carrier
  with the operations the source uses (`DoubleOps`).
* The loops over months and days, whose bounds are at most 12 and 31, are
  recursive functions that test the loop condition before each iteration,
  with the distance to the bound as termination measure.  The loop over
  years, which need not end, takes a number of iterations it may run
  (`fuel`) and reports whether it has returned.
-/

namespace SolarCalculator

/-! ## Calendar utilities (`solar_calculator.c`, lines 103-182) -/

/-- The function `days_in_month` (lines 108-138): the number of days of a
month, `0` for a month outside 1..12. -/
def days_in_month (year month : Int) : Int :=
  if month < 1 ∨ month > 12 then 0
  else if month = 1 ∨ month = 3 ∨ month = 5 ∨ month = 7
      ∨ month = 8 ∨ month = 10 ∨ month = 12 then 31
  else if month = 2 then
    if Int.tmod year 4 = 0 ∧ Int.tmod year 100 ≠ 0 ∧ Int.tmod year 400 = 0 then 29
    else 28
  else if month = 4 ∨ month = 6 ∨ month = 9 ∨ month = 11 then 30
  else 0

/-- The parenthesised sum inside `day_of_week` (lines 147-153), before the
final `% 7`, on integers without a bound: the Julian day number formula, and
the value of the C expression whenever none of its operations overflows. -/
def julian_day (year month day : Int) : Int :=
  day
  + Int.tdiv (153 * (month + 12 * Int.tdiv (14 - month) 12 - 3) + 2) 5
  + 365 * (year + 4800 - Int.tdiv (14 - month) 12)
  + Int.tdiv (year + 4800 - Int.tdiv (14 - month) 12) 4
  - Int.tdiv (year + 4800 - Int.tdiv (14 - month) 12) 100
  + Int.tdiv (year + 4800 - Int.tdiv (14 - month) 12) 400
  - 32045

/-- The function `day_of_week` (lines 145-156) on integers without a bound:
its value whenever no operation of the C expression overflows. -/
def day_of_week (year month day : Int) : Int :=
  Int.tmod (julian_day year month day) 7

/-- Two's complement wrap-around of an integer into the range of a 32-bit
`int`, `-2147483648 .. 2147483647`. -/
def wrap32 (x : Int) : Int :=
  (x + 2147483648) % 4294967296 - 2147483648

/-- The C operation `+` on 32-bit `int`. -/
def add32 (a b : Int) : Int := wrap32 (a + b)

/-- The C operation `-` on 32-bit `int`. -/
def sub32 (a b : Int) : Int := wrap32 (a - b)

/-- The C operation `*` on 32-bit `int`. -/
def mul32 (a b : Int) : Int := wrap32 (a * b)

/-- The parenthesised sum inside `day_of_week` (lines 147-153) in 32-bit `int`
arithmetic, operation by operation in the order of the C expression. -/
def julian_day_int32 (year month day : Int) : Int :=
  sub32
    (add32
      (sub32
        (add32
          (add32
            (add32 day
              (Int.tdiv
                (add32
                  (mul32 153
                    (sub32 (add32 month (mul32 12 (Int.tdiv (sub32 14 month) 12))) 3))
                  2)
                5))
            (mul32 365 (sub32 (add32 year 4800) (Int.tdiv (sub32 14 month) 12))))
          (Int.tdiv (sub32 (add32 year 4800) (Int.tdiv (sub32 14 month) 12)) 4))
        (Int.tdiv (sub32 (add32 year 4800) (Int.tdiv (sub32 14 month) 12)) 100))
      (Int.tdiv (sub32 (add32 year 4800) (Int.tdiv (sub32 14 month) 12)) 400))
    32045

/-- The function `day_of_week` (lines 145-156) in 32-bit `int` arithmetic, as
`is_central_europe_dst` calls it. -/
def day_of_week_int32 (year month day : Int) : Int :=
  Int.tmod (julian_day_int32 year month day) 7

/-- The function `is_central_europe_dst` (lines 163-182) in 32-bit `int`
arithmetic; the C result is an `int` that is `0` or `1`. -/
def is_central_europe_dst (year month day : Int) : Int :=
  if month < 3 ∨ month > 10 then 0
  else if month > 3 ∧ month < 10 then 1
  else
    let ps := sub32 day (day_of_week_int32 year month day)
    if month = 3 then (if ps ≥ 25 then 1 else 0)
    else if month = 10 then (if ps < 25 then 1 else 0)
    else 0

/-- Every value that the evaluation of the expression of `day_of_week`
(lines 147-154) computes on integers without a bound, subexpression by
subexpression. -/
def day_of_week_intermediates (year month day : Int) : List Int :=
  let a := Int.tdiv (14 - month) 12
  let yy := year + 4800 - a
  let mm := month + 12 * a - 3
  [14 - month, a, 12 * a, month + 12 * a, mm, 153 * mm, 153 * mm + 2,
    Int.tdiv (153 * mm + 2) 5, day + Int.tdiv (153 * mm + 2) 5,
    year + 4800, yy, 365 * yy,
    day + Int.tdiv (153 * mm + 2) 5 + 365 * yy,
    Int.tdiv yy 4,
    day + Int.tdiv (153 * mm + 2) 5 + 365 * yy + Int.tdiv yy 4,
    Int.tdiv yy 100,
    day + Int.tdiv (153 * mm + 2) 5 + 365 * yy + Int.tdiv yy 4 - Int.tdiv yy 100,
    Int.tdiv yy 400,
    day + Int.tdiv (153 * mm + 2) 5 + 365 * yy + Int.tdiv yy 4 - Int.tdiv yy 100
      + Int.tdiv yy 400,
    julian_day year month day, day_of_week year month day]

/-! ## The generation loop of `insert_entries` (lines 340-369) -/

/-- A calendar date as the loop variables `y`, `m`, `d` of `insert_entries`. -/
structure Date where
  year : Int
  month : Int
  day : Int
deriving DecidableEq, Repr

/-- Strict lexicographic order on `(year, month, day)`. -/
def date_lt (a b : Date) : Prop :=
  a.year < b.year ∨
    (a.year = b.year ∧ (a.month < b.month ∨ (a.month = b.month ∧ a.day < b.day)))

instance date_lt_decidable : DecidableRel date_lt := fun a b => by
  unfold date_lt
  infer_instance

/-- The innermost loop `for (int d=1; d<=days; d++)` (lines 357-368), started
at `d`: the dates for which one record is built. -/
def day_loop (y m d days : Int) : List Date :=
  if d ≤ days then ⟨y, m, d⟩ :: day_loop y m (d + 1) days else []
termination_by (days + 1 - d).toNat
decreasing_by omega

/-- The loop `for (int m=FIRSTMONTH; m<=LASTMONTH; m++)` (lines 351-369),
started at `m`; a month for which `days_in_month` gives `0` is skipped by the
`continue` of line 355. -/
def month_loop (y m : Int) : List Date :=
  if m ≤ 12 then
    (if days_in_month y m = 0 then [] else day_loop y m 1 (days_in_month y m))
      ++ month_loop y (m + 1)
  else []
termination_by (13 - m).toNat
decreasing_by omega

/-- The results of the `sqlite3` calls on which `insert_entries` branches:
whether `sqlite3_open` (line 324) and `sqlite3_prepare` (line 333) succeed,
and for each year whether its `BEGIN TRANSACTION` (line 341) and its
`COMMIT TRANSACTION` (line 370) succeed. -/
structure SqliteResults where
  open_ok : Bool
  prepare_ok : Bool
  begin_ok : Int → Bool
  commit_ok : Int → Bool

/-- What `insert_entries` has done: `rc` is the value it returned, `none` as
long as it has not returned, and `records` are the dates for which it has
built a record, in the order in which it built them. -/
structure Run where
  rc : Option Int
  records : List Date

/-- The loop `for (int y=from; y<=until; y++)` (lines 340-380) and the return
that follows it, started at `y` and run for at most `fuel` iterations.  The
counter is a 32-bit `int`, so `y++` is `wrap32 (y + 1)`.  A failing `BEGIN`
returns 0 before the months of the year, a failing `COMMIT` returns 0 after
them; when the loop condition fails the function returns 1. -/
def year_loop (db : SqliteResults) : Nat → Int → Int → Run
  | 0, y, until_ =>
    if y ≤ until_ then { rc := none, records := [] } else { rc := some 1, records := [] }
  | fuel + 1, y, until_ =>
    if y ≤ until_ then
      if db.begin_ok y then
        if db.commit_ok y then
          { rc := (year_loop db fuel (wrap32 (y + 1)) until_).rc,
            records := month_loop y 1 ++ (year_loop db fuel (wrap32 (y + 1)) until_).records }
        else { rc := some 0, records := month_loop y 1 }
      else { rc := some 0, records := [] }
    else { rc := some 1, records := [] }

/-- The function `insert_entries` (lines 313-384), run for at most `fuel`
iterations of its loop over years: it returns 0 without a record when
`sqlite3_open` or `sqlite3_prepare` fails.  A failing `sqlite3_step` (line
363) is only logged: it changes neither the control flow nor the dates for
which a record is built. -/
def insert_entries (db : SqliteResults) (fuel : Nat) (from_ until_ : Int) : Run :=
  if db.open_ok then
    if db.prepare_ok then year_loop db fuel from_ until_
    else { rc := some 0, records := [] }
  else { rc := some 0, records := [] }

/-- The `sqlite3` results of a run in which every call succeeds. -/
def sqlite_all_ok : SqliteResults :=
  { open_ok := true, prepare_ok := true, begin_ok := fun _ => true,
    commit_ok := fun _ => true }

/-- The `sqlite3` results of a run in which `sqlite3_open` fails. -/
def sqlite_open_fails : SqliteResults :=
  { open_ok := false, prepare_ok := true, begin_ok := fun _ => true,
    commit_ok := fun _ => true }

/-- The dates of the years `y..until_` in the order of the triple loop of the
specification: year by year, each year the dates of `month_loop`. -/
def years_dates (y until_ : Int) : List Date :=
  if y ≤ until_ then month_loop y 1 ++ years_dates (y + 1) until_ else []
termination_by (until_ + 1 - y).toNat
decreasing_by omega

/-! ## Day of the year (`calc_sun_time`, lines 44-48) -/

/-- The day of the year `N` of `calc_sun_time` (lines 45-48) on integers.
`275*month/9`, `(month+9)/12` and `year/4` are C `int` divisions whose results
`floor` leaves unchanged.  `(year-4*floor(year/4)+2)/3` is a `double` division
of a small whole number by 3, and `floor` of it is the floor division of
integers; all values are whole numbers that a `double` holds exactly. -/
def calc_sun_time_N (year month day : Int) : Int :=
  let N1 := Int.tdiv (275 * month) 9
  let N2 := Int.tdiv (month + 9) 12
  let N3 := 1 + Int.fdiv (year - 4 * Int.tdiv year 4 + 2) 3
  N1 - (N2 * N3) + day - 30

/-- The ordinal of a date within its year as `insert_entries` enumerates it:
`day` plus the lengths `days_in_month year k` of the months `k = 1..month-1`. -/
def ordinal_in_year (year month day : Int) : Int :=
  ((List.range (month - 1).toNat).map (fun k => days_in_month year ((k : Int) + 1))).sum + day

/-! ## Reference calendar notions used to state the properties -/

/-- Leap years of the Gregorian calendar. -/
def gregorian_leap (year : Int) : Bool :=
  year % 4 = 0 ∧ (year % 100 ≠ 0 ∨ year % 400 = 0)

/-- Month lengths of the Gregorian calendar (months 1..12). -/
def gregorian_days_in_month (year month : Int) : Int :=
  if month = 2 then (if gregorian_leap year then 29 else 28)
  else if month = 4 ∨ month = 6 ∨ month = 9 ∨ month = 11 then 30
  else 31

/-- A valid date of the Gregorian calendar. -/
def valid_gregorian (year month day : Int) : Prop :=
  1 ≤ month ∧ month ≤ 12 ∧ 1 ≤ day ∧ day ≤ gregorian_days_in_month year month

instance valid_gregorian_decidable (year month day : Int) :
    Decidable (valid_gregorian year month day) := by
  unfold valid_gregorian
  infer_instance

/-- The calendar day after a valid Gregorian date. -/
def next_day (dt : Date) : Date :=
  if dt.day < gregorian_days_in_month dt.year dt.month then ⟨dt.year, dt.month, dt.day + 1⟩
  else if dt.month < 12 then ⟨dt.year, dt.month + 1, 1⟩
  else ⟨dt.year + 1, 1, 1⟩

/-- In a month of 31 days (March, October): the last day for which the
program's `day_of_week` is `0` (a Monday), found by stepping back from the
31st by its weekday. -/
def last_monday (year month : Int) : Int :=
  31 - day_of_week_int32 year month 31

/-- In a month of 31 days (March, October): the last day whose `day_of_week`
is `6` (a Sunday). -/
def last_sunday (year month : Int) : Int :=
  31 - (day_of_week year month 31 + 1) % 7

/-! ## Sun time (`calc_sun_time`, `get_sunrise`, `get_sunset`)

The C type `double` and the operations that the source applies to it are a
parameter of the embedding: `calc_sun_time` is written once, over any carrier
`F` with these operations, in the order and grouping of the C expressions. -/

/-- The operations on `double` used by `calc_sun_time`, `get_sunrise` and
`get_sunset`. -/
structure DoubleOps (F : Type) where
  /-- conversion of an `int` to `double` -/
  ofInt : Int → F
  /-- a decimal floating literal of the source -/
  lit : ℚ → F
  add : F → F → F
  sub : F → F → F
  mul : F → F → F
  div : F → F → F
  floor : F → F
  fmod : F → F → F
  sin : F → F
  cos : F → F
  tan : F → F
  asin : F → F
  acos : F → F
  atan : F → F
  /-- integral part delivered by `modf` -/
  modf_int : F → F
  /-- fractional part returned by `modf` -/
  modf_frac : F → F

/-- The macro `PI` (line 9). -/
def PI {F : Type} (D : DoubleOps F) : F :=
  D.lit 3.1415926535897932384626433832795

/-- The macro `ZENITH` (line 15). -/
def ZENITH {F : Type} (D : DoubleOps F) : F :=
  D.lit (-0.83)

/-- The macro `LATITUDE` (line 19). -/
def LATITUDE {F : Type} (D : DoubleOps F) : F :=
  D.lit 50.000000

/-- The macro `LONGITUDE` (line 20). -/
def LONGITUDE {F : Type} (D : DoubleOps F) : F :=
  D.lit 11.00000

/-- The local variables of `calc_sun_time` at its `return`, and the value it
returns. -/
structure SunTimeLocals (F : Type) where
  N : F
  lngHour : F
  t : F
  M : F
  L : F
  RA : F
  sinDec : F
  cosDec : F
  cosH : F
  /-- the value of `H` after the `if` of lines 85-90, in degrees -/
  H_deg : F
  /-- the value of `H` after line 91, in hours -/
  H : F
  T : F
  UT : F
  /-- the returned value `UT + localOffset + daylightSavings` -/
  result : F

/-- The body of `calc_sun_time` (lines 44-99), keeping every local. -/
def calc_sun_time_locals {F : Type} (D : DoubleOps F) (year month day : Int) (lat lng : F)
    (localOffset daylightSavings settingTime : Int) : SunTimeLocals F :=
  let N1 := D.floor (D.ofInt (Int.tdiv (275 * month) 9))
  let N2 := D.floor (D.ofInt (Int.tdiv (month + 9) 12))
  let N3 := D.add (D.ofInt 1)
    (D.floor (D.div
      (D.add (D.sub (D.ofInt year) (D.mul (D.ofInt 4) (D.floor (D.ofInt (Int.tdiv year 4)))))
        (D.ofInt 2))
      (D.ofInt 3)))
  let N := D.sub (D.add (D.sub N1 (D.mul N2 N3)) (D.ofInt day)) (D.ofInt 30)
  let lngHour := D.div lng (D.lit 15.0)
  let t :=
    if settingTime ≠ 0 then D.add N (D.div (D.sub (D.ofInt 6) lngHour) (D.ofInt 24))
    else D.add N (D.div (D.sub (D.ofInt 18) lngHour) (D.ofInt 24))
  let M := D.sub (D.mul (D.lit 0.9856) t) (D.lit 3.289)
  let L := D.fmod
    (D.add
      (D.add
        (D.add M (D.mul (D.lit 1.916) (D.sin (D.mul (D.div (PI D) (D.ofInt 180)) M))))
        (D.mul (D.lit 0.020)
          (D.sin (D.mul (D.mul (D.ofInt 2) (D.div (PI D) (D.ofInt 180))) M))))
      (D.lit 282.634))
    (D.lit 360.0)
  let RA0 := D.fmod
    (D.mul (D.div (D.ofInt 180) (PI D))
      (D.atan (D.mul (D.lit 0.91764) (D.tan (D.mul (D.div (PI D) (D.ofInt 180)) L)))))
    (D.lit 360.0)
  let Lquadrant := D.mul (D.floor (D.div L (D.ofInt 90))) (D.ofInt 90)
  let RAquadrant := D.mul (D.floor (D.div RA0 (D.ofInt 90))) (D.ofInt 90)
  let RA1 := D.add RA0 (D.sub Lquadrant RAquadrant)
  let RA := D.div RA1 (D.ofInt 15)
  let sinDec := D.mul (D.lit 0.39782) (D.sin (D.mul (D.div (PI D) (D.ofInt 180)) L))
  let cosDec := D.cos (D.asin sinDec)
  let cosH := D.div
    (D.sub (D.sin (D.mul (D.div (PI D) (D.ofInt 180)) (ZENITH D)))
      (D.mul sinDec (D.sin (D.mul (D.div (PI D) (D.ofInt 180)) lat))))
    (D.mul cosDec (D.cos (D.mul (D.div (PI D) (D.ofInt 180)) lat)))
  let H_deg :=
    if settingTime ≠ 0 then
      D.sub (D.ofInt 360) (D.mul (D.div (D.ofInt 180) (PI D)) (D.acos cosH))
    else D.mul (D.div (D.ofInt 180) (PI D)) (D.acos cosH)
  let H := D.div H_deg (D.ofInt 15)
  let T := D.sub (D.sub (D.add H RA) (D.mul (D.lit 0.06571) t)) (D.lit 6.622)
  let UT := D.fmod (D.sub T lngHour) (D.lit 24.0)
  { N := N, lngHour := lngHour, t := t, M := M, L := L, RA := RA, sinDec := sinDec,
    cosDec := cosDec, cosH := cosH, H_deg := H_deg, H := H, T := T, UT := UT,
    result := D.add (D.add UT (D.ofInt localOffset)) (D.ofInt daylightSavings) }

/-- The function `calc_sun_time` (lines 36-100). -/
def calc_sun_time {F : Type} (D : DoubleOps F) (year month day : Int) (lat lng : F)
    (localOffset daylightSavings settingTime : Int) : F :=
  (calc_sun_time_locals D year month day lat lng localOffset daylightSavings settingTime).result

/-- The fields of `struct tm` that `get_sunrise` and `get_sunset` set.  The
fields `tm_min` and `tm_hour` hold the `double` values `minutes` and `hours`
to which the source applies the cast `(int)`. -/
structure Tm (F : Type) where
  tm_year : Int
  tm_mday : Int
  tm_mon : Int
  tm_min : F
  tm_hour : F
  tm_isdst : Int

/-- The function `get_sunrise` (lines 189-212). -/
def get_sunrise {F : Type} (D : DoubleOps F) (year month day : Int) (lat lng : F)
    (offset dst : Int) : Tm F :=
  let localtime := D.fmod
    (D.add (D.ofInt 24) (calc_sun_time D year month day lat lng offset dst (-1))) (D.ofInt 24)
  let hours := D.modf_int localtime
  let minutes := D.mul (D.modf_frac localtime) (D.ofInt 60)
  { tm_year := year - 1900, tm_mday := day, tm_mon := month - 1, tm_min := minutes,
    tm_hour := hours, tm_isdst := dst }

/-- The function `get_sunset` (lines 219-242). -/
def get_sunset {F : Type} (D : DoubleOps F) (year month day : Int) (lat lng : F)
    (offset dst : Int) : Tm F :=
  let localtime := D.fmod
    (D.add (D.ofInt 24) (calc_sun_time D year month day lat lng offset dst 0)) (D.ofInt 24)
  let hours := D.modf_int localtime
  let minutes := D.mul (D.modf_frac localtime) (D.ofInt 60)
  { tm_year := year - 1900, tm_mday := day, tm_mon := month - 1, tm_min := minutes,
    tm_hour := hours, tm_isdst := dst }

/-- Formulas over `double`, as written: the carrier in which two values are
equal exactly when they are the same formula. -/
inductive DExpr where
  | ofInt (n : Int)
  | lit (q : ℚ)
  | add (a b : DExpr)
  | sub (a b : DExpr)
  | mul (a b : DExpr)
  | div (a b : DExpr)
  | floor (a : DExpr)
  | fmod (a b : DExpr)
  | sin (a : DExpr)
  | cos (a : DExpr)
  | tan (a : DExpr)
  | asin (a : DExpr)
  | acos (a : DExpr)
  | atan (a : DExpr)
  | modf_int (a : DExpr)
  | modf_frac (a : DExpr)
deriving DecidableEq, Repr

/-- The operations of the source read as formula constructors. -/
def formula_ops : DoubleOps DExpr where
  ofInt := DExpr.ofInt
  lit := DExpr.lit
  add := DExpr.add
  sub := DExpr.sub
  mul := DExpr.mul
  div := DExpr.div
  floor := DExpr.floor
  fmod := DExpr.fmod
  sin := DExpr.sin
  cos := DExpr.cos
  tan := DExpr.tan
  asin := DExpr.asin
  acos := DExpr.acos
  atan := DExpr.atan
  modf_int := DExpr.modf_int
  modf_frac := DExpr.modf_frac

/-- The approximate time of the specification, step 3:
`t = N + (hour − lngHour)/24`, with `hour` 6 or 18. -/
def spec_approx_time {F : Type} (D : DoubleOps F) (N lngHour : F) (hour : Int) : F :=
  D.add N (D.div (D.sub (D.ofInt hour) lngHour) (D.ofInt 24))

/-- The hour angle `acos(cosH)·180/π` of the specification, step 9, with the
factor written as in the source, `(180/PI)*acos(cosH)`. -/
def spec_hour_angle {F : Type} (D : DoubleOps F) (cosH : F) : F :=
  D.mul (D.div (D.ofInt 180) (PI D)) (D.acos cosH)

/-- The hour angle `360 − acos(cosH)·180/π` of the specification, step 9. -/
def spec_hour_angle_complement {F : Type} (D : DoubleOps F) (cosH : F) : F :=
  D.sub (D.ofInt 360) (spec_hour_angle D cosH)

/-- The pairing of formulas and modes that the specification states (steps 3
and 9): sunrise, which `get_sunrise` requests with `settingTime = -1`, uses
`t = N + (6 − lngHour)/24` with `H = acos(cosH)·180/π`; sunset, which
`get_sunset` requests with `settingTime = 0`, uses `t = N + (18 − lngHour)/24`
with `H = 360 − acos(cosH)·180/π`. -/
def pairing_as_specified {F : Type} (D : DoubleOps F) (year month day : Int) (lat lng : F)
    (offset dst : Int) : Prop :=
  (calc_sun_time_locals D year month day lat lng offset dst (-1)).t
      = spec_approx_time D (calc_sun_time_locals D year month day lat lng offset dst (-1)).N
          (calc_sun_time_locals D year month day lat lng offset dst (-1)).lngHour 6
  ∧ (calc_sun_time_locals D year month day lat lng offset dst (-1)).H_deg
      = spec_hour_angle D (calc_sun_time_locals D year month day lat lng offset dst (-1)).cosH
  ∧ (calc_sun_time_locals D year month day lat lng offset dst 0).t
      = spec_approx_time D (calc_sun_time_locals D year month day lat lng offset dst 0).N
          (calc_sun_time_locals D year month day lat lng offset dst 0).lngHour 18
  ∧ (calc_sun_time_locals D year month day lat lng offset dst 0).H_deg
      = spec_hour_angle_complement D
          (calc_sun_time_locals D year month day lat lng offset dst 0).cosH

/-- Arithmetic on `double` is exact on the whole numbers that the day-of-year
computation of `calc_sun_time` meets: sums, differences and products of
converted `int` values, `floor` of a whole number, and `floor` of a whole
number divided by 3. -/
structure ExactOnIntegers {F : Type} (D : DoubleOps F) : Prop where
  add_ofInt : ∀ a b : Int, D.add (D.ofInt a) (D.ofInt b) = D.ofInt (a + b)
  sub_ofInt : ∀ a b : Int, D.sub (D.ofInt a) (D.ofInt b) = D.ofInt (a - b)
  mul_ofInt : ∀ a b : Int, D.mul (D.ofInt a) (D.ofInt b) = D.ofInt (a * b)
  floor_ofInt : ∀ a : Int, D.floor (D.ofInt a) = D.ofInt a
  floor_div_three : ∀ a : Int,
    D.floor (D.div (D.ofInt a) (D.ofInt 3)) = D.ofInt (Int.fdiv a 3)

/-- Truncation of a rational number toward zero. -/
def trunc_rat (q : ℚ) : ℚ :=
  if 0 ≤ q then ((⌊q⌋ : Int) : ℚ) else ((⌈q⌉ : Int) : ℚ)

/-- Exact arithmetic on rational numbers, for given library functions. -/
def rational_ops (sin cos tan asin acos atan : ℚ → ℚ) : DoubleOps ℚ where
  ofInt := fun n => (n : ℚ)
  lit := fun q => q
  add := fun a b => a + b
  sub := fun a b => a - b
  mul := fun a b => a * b
  div := fun a b => a / b
  floor := fun a => ((⌊a⌋ : Int) : ℚ)
  fmod := fun a b => a - b * trunc_rat (a / b)
  sin := sin
  cos := cos
  tan := tan
  asin := asin
  acos := acos
  atan := atan
  modf_int := trunc_rat
  modf_frac := fun a => a - trunc_rat a

/-- The cast `(int)` of a `double` with a rational value: truncation toward
zero. -/
def c_int (q : ℚ) : Int :=
  if 0 ≤ q then ⌊q⌋ else ⌈q⌉

theorem days_in_month_february (year : Int) : days_in_month year 2 = 28 := by
  unfold days_in_month
  simp only [show ¬ ((2 : Int) < 1 ∨ (2 : Int) > 12) by decide,
    show ¬ ((2 : Int) = 1 ∨ (2 : Int) = 3 ∨ (2 : Int) = 5 ∨ (2 : Int) = 7
      ∨ (2 : Int) = 8 ∨ (2 : Int) = 10 ∨ (2 : Int) = 12) by decide, if_false, if_true]
  rw [if_neg]
  rintro ⟨_, h100, h400⟩
  apply h100
  have h : (400 : Int) ∣ year := Int.dvd_of_tmod_eq_zero h400
  exact Int.tmod_eq_zero_of_dvd (Dvd.dvd.trans (by decide) h)

theorem days_in_month_values (year month : Int) (h1 : 1 ≤ month) (h2 : month ≤ 12) :
    days_in_month year month =
      if month = 2 then 28
      else if month = 4 ∨ month = 6 ∨ month = 9 ∨ month = 11 then 30 else 31 := by
  by_cases hm : month = 2
  · subst hm
    simp [days_in_month_february]
  · unfold days_in_month
    have hcases : month = 1 ∨ month = 3 ∨ month = 4 ∨ month = 5 ∨ month = 6 ∨ month = 7
        ∨ month = 8 ∨ month = 9 ∨ month = 10 ∨ month = 11 ∨ month = 12 := by omega
    rcases hcases with h | h | h | h | h | h | h | h | h | h | h <;> subst h <;> simp

theorem day_loop_length (y m d days : Int) :
    ((day_loop y m d days).length : Int) = max 0 (days + 1 - d) := by
  induction d, days using day_loop.induct y m with
  | case1 d days h ih =>
    rw [day_loop, if_pos h, List.length_cons]
    push_cast
    rw [ih]
    omega
  | case2 d days h =>
    rw [day_loop, if_neg h]
    simp
    omega

theorem mem_day_loop (y m d days : Int) (x : Date) (hx : x ∈ day_loop y m d days) :
    x.year = y ∧ x.month = m ∧ d ≤ x.day ∧ x.day ≤ days := by
  induction d, days using day_loop.induct y m with
  | case1 d days h ih =>
    rw [day_loop, if_pos h, List.mem_cons] at hx
    rcases hx with hx | hx
    · subst hx
      exact ⟨rfl, rfl, le_refl _, h⟩
    · obtain ⟨a, b, c, e⟩ := ih hx
      exact ⟨a, b, by omega, e⟩
  | case2 d days h =>
    rw [day_loop, if_neg h] at hx
    simp at hx

theorem day_loop_pairwise (y m d days : Int) :
    List.Pairwise date_lt (day_loop y m d days) := by
  induction d, days using day_loop.induct y m with
  | case1 d days h ih =>
    rw [day_loop, if_pos h, List.pairwise_cons]
    refine ⟨?_, ih⟩
    intro x hx
    obtain ⟨a, b, c, _⟩ := mem_day_loop y m (d + 1) days x hx
    right
    refine ⟨a.symm, Or.inr ⟨b.symm, ?_⟩⟩
    show d < x.day
    omega
  | case2 d days h =>
    rw [day_loop, if_neg h]
    exact List.Pairwise.nil

theorem mem_month_loop (y m : Int) (x : Date) (hx : x ∈ month_loop y m) :
    x.year = y ∧ m ≤ x.month ∧ x.month ≤ 12 ∧ 1 ≤ x.day
      ∧ x.day ≤ days_in_month y x.month := by
  induction m using month_loop.induct y with
  | case1 m h ih =>
    rw [month_loop, if_pos h, List.mem_append] at hx
    rcases hx with hx | hx
    · by_cases h0 : days_in_month y m = 0
      · rw [if_pos h0] at hx
        simp at hx
      · rw [if_neg h0] at hx
        obtain ⟨a, b, c, e⟩ := mem_day_loop y m 1 _ x hx
        subst b
        exact ⟨a, le_refl _, h, c, e⟩
    · obtain ⟨a, b, c, e⟩ := ih hx
      exact ⟨a, by omega, c, e⟩
  | case2 m h =>
    rw [month_loop, if_neg h] at hx
    simp at hx

theorem month_loop_pairwise (y m : Int) : List.Pairwise date_lt (month_loop y m) := by
  induction m using month_loop.induct y with
  | case1 m h ih =>
    rw [month_loop, if_pos h, List.pairwise_append]
    refine ⟨?_, ih, ?_⟩
    · by_cases h0 : days_in_month y m = 0
      · rw [if_pos h0]
        exact List.Pairwise.nil
      · rw [if_neg h0]
        exact day_loop_pairwise y m 1 _
    · intro a ha b hb
      obtain ⟨b1, b2, _, _⟩ := mem_month_loop y (m + 1) b hb
      by_cases h0 : days_in_month y m = 0
      · rw [if_pos h0] at ha
        simp at ha
      · rw [if_neg h0] at ha
        obtain ⟨a1, a2, _, _⟩ := mem_day_loop y m 1 _ a ha
        right
        refine ⟨by rw [a1, b1], Or.inl ?_⟩
        omega
  | case2 m h =>
    rw [month_loop, if_neg h]
    exact List.Pairwise.nil

theorem month_loop_step (y m : Int) (h1 : 1 ≤ m) (h2 : m ≤ 12) :
    ((month_loop y m).length : Int)
      = days_in_month y m + ((month_loop y (m + 1)).length : Int) := by
  have hv := days_in_month_values y m h1 h2
  have hpos : 28 ≤ days_in_month y m := by
    rw [hv]
    split_ifs <;> decide
  rw [month_loop, if_pos h2, if_neg (by omega), List.length_append]
  push_cast
  rw [day_loop_length]
  omega

theorem month_loop_length (y : Int) : ((month_loop y 1).length : Int) = 365 := by
  have h13 : ((month_loop y 13).length : Int) = 0 := by
    rw [month_loop, if_neg (by decide)]
    rfl
  have s1 := month_loop_step y 1 (by decide) (by decide)
  have s2 := month_loop_step y 2 (by decide) (by decide)
  have s3 := month_loop_step y 3 (by decide) (by decide)
  have s4 := month_loop_step y 4 (by decide) (by decide)
  have s5 := month_loop_step y 5 (by decide) (by decide)
  have s6 := month_loop_step y 6 (by decide) (by decide)
  have s7 := month_loop_step y 7 (by decide) (by decide)
  have s8 := month_loop_step y 8 (by decide) (by decide)
  have s9 := month_loop_step y 9 (by decide) (by decide)
  have s10 := month_loop_step y 10 (by decide) (by decide)
  have s11 := month_loop_step y 11 (by decide) (by decide)
  have s12 := month_loop_step y 12 (by decide) (by decide)
  rw [days_in_month_values y _ (by decide) (by decide)] at s1 s2 s3 s4 s5 s6 s7 s8 s9 s10 s11 s12
  norm_num at s1 s2 s3 s4 s5 s6 s7 s8 s9 s10 s11 s12
  omega

theorem years_dates_length (y until_ : Int) :
    ((years_dates y until_).length : Int) = 365 * max 0 (until_ - y + 1) := by
  induction y, until_ using years_dates.induct with
  | case1 y until_ h ih =>
    rw [years_dates, if_pos h, List.length_append]
    push_cast
    rw [ih, month_loop_length]
    omega
  | case2 y until_ h =>
    rw [years_dates, if_neg h]
    simp
    omega

theorem mem_years_dates (y until_ : Int) (x : Date) (hx : x ∈ years_dates y until_) :
    y ≤ x.year ∧ x.year ≤ until_ := by
  induction y, until_ using years_dates.induct with
  | case1 y until_ h ih =>
    rw [years_dates, if_pos h, List.mem_append] at hx
    rcases hx with hx | hx
    · obtain ⟨a, _⟩ := mem_month_loop y 1 x hx
      omega
    · have := ih hx
      omega
  | case2 y until_ h =>
    rw [years_dates, if_neg h] at hx
    simp at hx

theorem years_dates_pairwise (y until_ : Int) :
    List.Pairwise date_lt (years_dates y until_) := by
  induction y, until_ using years_dates.induct with
  | case1 y until_ h ih =>
    rw [years_dates, if_pos h, List.pairwise_append]
    refine ⟨month_loop_pairwise y 1, ih, ?_⟩
    intro a ha b hb
    obtain ⟨a1, _⟩ := mem_month_loop y 1 a ha
    obtain ⟨b1, _⟩ := mem_years_dates (y + 1) until_ b hb
    left
    omega
  | case2 y until_ h =>
    rw [years_dates, if_neg h]
    exact List.Pairwise.nil

theorem julian_day_eq (year month day : Int) (hy : -4799 ≤ year) (h1 : 1 ≤ month)
    (h2 : month ≤ 12) :
    julian_day year month day =
      day + (153 * (month + 12 * ((14 - month) / 12) - 3) + 2) / 5
        + 365 * (year + 4800 - (14 - month) / 12)
        + (year + 4800 - (14 - month) / 12) / 4
        - (year + 4800 - (14 - month) / 12) / 100
        + (year + 4800 - (14 - month) / 12) / 400
        - 32045 := by
  unfold julian_day
  have ha : Int.tdiv (14 - month) 12 = (14 - month) / 12 :=
    Int.tdiv_eq_ediv (by omega) (by decide)
  rw [ha]
  rw [Int.tdiv_eq_ediv (a := 153 * (month + 12 * ((14 - month) / 12) - 3) + 2)
    (by omega) (by decide)]
  rw [Int.tdiv_eq_ediv (a := year + 4800 - (14 - month) / 12) (b := 4) (by omega) (by decide)]
  rw [Int.tdiv_eq_ediv (a := year + 4800 - (14 - month) / 12) (b := 100) (by omega) (by decide)]
  rw [Int.tdiv_eq_ediv (a := year + 4800 - (14 - month) / 12) (b := 400) (by omega) (by decide)]

theorem day_of_week_eq (year month day : Int) (hy : 1900 ≤ year) (h1 : 1 ≤ month)
    (h2 : month ≤ 12) (hd : 0 ≤ day) :
    day_of_week year month day = julian_day year month day % 7 := by
  unfold day_of_week
  apply Int.tmod_eq_emod _ (by decide)
  rw [julian_day_eq year month day (by omega) h1 h2]
  omega

theorem julian_day_next (y m d : Int) (hy : 1900 ≤ y) (hv : valid_gregorian y m d) :
    julian_day (next_day ⟨y, m, d⟩).year (next_day ⟨y, m, d⟩).month (next_day ⟨y, m, d⟩).day
      = julian_day y m d + 1 := by
  obtain ⟨h1, h2, h3, h4⟩ := hv
  unfold next_day
  simp only
  unfold gregorian_days_in_month gregorian_leap at *
  have hcases : m = 1 ∨ m = 2 ∨ m = 3 ∨ m = 4 ∨ m = 5 ∨ m = 6 ∨ m = 7
        ∨ m = 8 ∨ m = 9 ∨ m = 10 ∨ m = 11 ∨ m = 12 := by omega
  rcases hcases with h | h | h | h | h | h | h | h | h | h | h | h <;> subst h <;>
    simp at h4 ⊢ <;> split_ifs <;>
    (simp only []
     rw [julian_day_eq _ _ _ (by omega) (by omega) (by omega),
       julian_day_eq _ _ _ (by omega) (by omega) (by omega)]
     omega)

theorem gregorian_days_in_month_pos (y m : Int) : 28 ≤ gregorian_days_in_month y m := by
  unfold gregorian_days_in_month
  split_ifs <;> decide

theorem next_day_valid (y m d : Int) (hv : valid_gregorian y m d) :
    valid_gregorian (next_day ⟨y, m, d⟩).year (next_day ⟨y, m, d⟩).month
      (next_day ⟨y, m, d⟩).day := by
  obtain ⟨h1, h2, h3, h4⟩ := hv
  unfold next_day
  simp only
  split_ifs with ha hb
  · exact ⟨h1, h2, by show 1 ≤ d + 1; omega,
      by show d + 1 ≤ gregorian_days_in_month y m; omega⟩
  · have hp := gregorian_days_in_month_pos y (m + 1)
    exact ⟨by show 1 ≤ m + 1; omega, by show m + 1 ≤ 12; omega, le_refl _,
      by show 1 ≤ gregorian_days_in_month y (m + 1); omega⟩
  · have hp := gregorian_days_in_month_pos (y + 1) 1
    exact ⟨by show (1 : Int) ≤ 1; decide, by show (1 : Int) ≤ 12; decide, le_refl _,
      by show 1 ≤ gregorian_days_in_month (y + 1) 1; omega⟩

theorem wrap32_eq_self (x : Int) (h1 : -2147483648 ≤ x) (h2 : x ≤ 2147483647) :
    wrap32 x = x := by
  unfold wrap32
  omega

theorem wrap32_range (x : Int) : -2147483648 ≤ wrap32 x ∧ wrap32 x ≤ 2147483647 := by
  unfold wrap32
  omega

/-- The 32-bit sum of `day_of_week` is the Julian day number formula as long
as that number fits a 32-bit `int`, which it does up to 31 December 5874897;
sums that leave the range on the way come back by the wrap-around. -/
theorem julian_day_int32_eq (y m d : Int) (hy1 : 1900 ≤ y) (hy2 : y ≤ 5874897)
    (hm1 : 1 ≤ m) (hm2 : m ≤ 12) (hd1 : 0 ≤ d) (hd2 : d ≤ 31) :
    julian_day_int32 y m d = julian_day y m d := by
  have e1 : sub32 14 m = 14 - m := wrap32_eq_self _ (by omega) (by omega)
  have ha : Int.tdiv (14 - m) 12 = (14 - m) / 12 :=
    Int.tdiv_eq_ediv (by omega) (by decide)
  have e2 : mul32 12 ((14 - m) / 12) = 12 * ((14 - m) / 12) :=
    wrap32_eq_self _ (by omega) (by omega)
  have e3 : add32 m (12 * ((14 - m) / 12)) = m + 12 * ((14 - m) / 12) :=
    wrap32_eq_self _ (by omega) (by omega)
  have e4 : sub32 (m + 12 * ((14 - m) / 12)) 3 = m + 12 * ((14 - m) / 12) - 3 :=
    wrap32_eq_self _ (by omega) (by omega)
  have e5 : mul32 153 (m + 12 * ((14 - m) / 12) - 3) = 153 * (m + 12 * ((14 - m) / 12) - 3) :=
    wrap32_eq_self _ (by omega) (by omega)
  have e6 : add32 (153 * (m + 12 * ((14 - m) / 12) - 3)) 2
      = 153 * (m + 12 * ((14 - m) / 12) - 3) + 2 :=
    wrap32_eq_self _ (by omega) (by omega)
  have e7 : add32 y 4800 = y + 4800 := wrap32_eq_self _ (by omega) (by omega)
  have e8 : sub32 (y + 4800) ((14 - m) / 12) = y + 4800 - (14 - m) / 12 :=
    wrap32_eq_self _ (by omega) (by omega)
  have hj := julian_day_eq y m d (by omega) hm1 hm2
  unfold julian_day_int32
  rw [e1, ha, e2, e3, e4, e5, e6, e7, e8, hj]
  rw [Int.tdiv_eq_ediv (a := 153 * (m + 12 * ((14 - m) / 12) - 3) + 2)
    (by omega) (by decide)]
  rw [Int.tdiv_eq_ediv (a := y + 4800 - (14 - m) / 12) (b := 4) (by omega) (by decide)]
  rw [Int.tdiv_eq_ediv (a := y + 4800 - (14 - m) / 12) (b := 100) (by omega) (by decide)]
  rw [Int.tdiv_eq_ediv (a := y + 4800 - (14 - m) / 12) (b := 400) (by omega) (by decide)]
  unfold add32 sub32 mul32 wrap32
  omega

theorem day_of_week_int32_eq (y m d : Int) (hy1 : 1900 ≤ y) (hy2 : y ≤ 5874897)
    (hm1 : 1 ≤ m) (hm2 : m ≤ 12) (hd1 : 0 ≤ d) (hd2 : d ≤ 31) :
    day_of_week_int32 y m d = day_of_week y m d := by
  unfold day_of_week_int32 day_of_week
  rw [julian_day_int32_eq y m d hy1 hy2 hm1 hm2 hd1 hd2]

/-- In March and October of a year from 1900 on, `day_of_week` of day `k` is
`(k + c) % 7` for a constant `c ≥ 0` of that month. -/
theorem day_of_week_shift (y m : Int) (hy : 1900 ≤ y) (h1 : 1 ≤ m) (h2 : m ≤ 12) :
    0 ≤ julian_day y m 0 ∧
      ∀ k : Int, 0 ≤ k → day_of_week y m k = (k + julian_day y m 0) % 7 := by
  have h0 : 0 ≤ julian_day y m 0 := by
    rw [julian_day_eq y m 0 (by omega) h1 h2]
    omega
  refine ⟨h0, ?_⟩
  intro k hk
  rw [day_of_week_eq y m k hy h1 h2 hk, julian_day_eq y m k (by omega) h1 h2]
  rw [julian_day_eq y m 0 (by omega) h1 h2]
  omega

theorem last_monday_spec (y m : Int) (hy : 1900 ≤ y) (hy2 : y ≤ 5874897) (h1 : 1 ≤ m)
    (h2 : m ≤ 12) :
    25 ≤ last_monday y m ∧ last_monday y m ≤ 31
      ∧ day_of_week_int32 y m (last_monday y m) = 0
      ∧ ∀ k : Int, last_monday y m < k → k ≤ 31 → day_of_week_int32 y m k ≠ 0 := by
  obtain ⟨h0, hs⟩ := day_of_week_shift y m hy h1 h2
  have h31 := hs 31 (by decide)
  have e31 := day_of_week_int32_eq y m 31 hy hy2 h1 h2 (by decide) (by decide)
  unfold last_monday
  rw [e31]
  refine ⟨by omega, by omega, ?_, ?_⟩
  · rw [day_of_week_int32_eq y m _ hy hy2 h1 h2 (by omega) (by omega), hs _ (by omega)]
    omega
  · intro k hk1 hk2
    rw [day_of_week_int32_eq y m k hy hy2 h1 h2 (by omega) hk2, hs k (by omega)]
    omega

theorem last_sunday_spec (y m : Int) (hy : 1900 ≤ y) (h1 : 1 ≤ m) (h2 : m ≤ 12) :
    25 ≤ last_sunday y m ∧ last_sunday y m ≤ 31 ∧ day_of_week y m (last_sunday y m) = 6
      ∧ ∀ k : Int, last_sunday y m < k → k ≤ 31 → day_of_week y m k ≠ 6 := by
  obtain ⟨h0, hs⟩ := day_of_week_shift y m hy h1 h2
  have h31 := hs 31 (by decide)
  unfold last_sunday
  refine ⟨by omega, by omega, ?_, ?_⟩
  · rw [hs _ (by omega)]
    omega
  · intro k hk1 hk2
    rw [hs k (by omega)]
    omega

theorem dst_march (y d : Int) (hy : 1900 ≤ y) (hy2 : y ≤ 5874897) (hd1 : 1 ≤ d)
    (hd2 : d ≤ 31) :
    is_central_europe_dst y 3 d = if last_monday y 3 ≤ d then 1 else 0 := by
  obtain ⟨h0, hs⟩ := day_of_week_shift y 3 hy (by decide) (by decide)
  have h31 := hs 31 (by decide)
  have hd := hs d (by omega)
  have e31 := day_of_week_int32_eq y 3 31 hy hy2 (by decide) (by decide) (by decide)
    (by decide)
  have ed := day_of_week_int32_eq y 3 d hy hy2 (by decide) (by decide) (by omega) hd2
  have es : sub32 d (day_of_week y 3 d) = d - day_of_week y 3 d :=
    wrap32_eq_self _ (by omega) (by omega)
  unfold is_central_europe_dst last_monday
  rw [e31, ed, es]
  simp only [show ¬ ((3 : Int) < 3 ∨ (3 : Int) > 10) by decide,
    show ¬ ((3 : Int) > 3 ∧ (3 : Int) < 10) by decide, if_false, if_true]
  split_ifs <;> omega

theorem dst_october (y d : Int) (hy : 1900 ≤ y) (hy2 : y ≤ 5874897) (hd1 : 1 ≤ d)
    (hd2 : d ≤ 31) :
    is_central_europe_dst y 10 d = if d < last_monday y 10 then 1 else 0 := by
  obtain ⟨h0, hs⟩ := day_of_week_shift y 10 hy (by decide) (by decide)
  have h31 := hs 31 (by decide)
  have hd := hs d (by omega)
  have e31 := day_of_week_int32_eq y 10 31 hy hy2 (by decide) (by decide) (by decide)
    (by decide)
  have ed := day_of_week_int32_eq y 10 d hy hy2 (by decide) (by decide) (by omega) hd2
  have es : sub32 d (day_of_week y 10 d) = d - day_of_week y 10 d :=
    wrap32_eq_self _ (by omega) (by omega)
  unfold is_central_europe_dst last_monday
  rw [e31, ed, es]
  simp only [show ¬ ((10 : Int) < 3 ∨ (10 : Int) > 10) by decide,
    show ¬ ((10 : Int) > 3 ∧ (10 : Int) < 10) by decide,
    show ¬ ((10 : Int) = 3) by decide, if_false, if_true]
  split_ifs <;> omega

theorem mem_day_loop_iff (y m d days : Int) (x : Date) :
    x ∈ day_loop y m d days ↔ x.year = y ∧ x.month = m ∧ d ≤ x.day ∧ x.day ≤ days := by
  refine ⟨mem_day_loop y m d days x, ?_⟩
  induction d, days using day_loop.induct y m with
  | case1 d days h ih =>
    rintro ⟨a, b, c, e⟩
    rw [day_loop, if_pos h, List.mem_cons]
    by_cases hd : x.day = d
    · left
      cases x
      simp_all
    · right
      exact ih ⟨a, b, by omega, e⟩
  | case2 d days h =>
    rintro ⟨_, _, c, e⟩
    omega

theorem mem_month_loop_iff (y m : Int) (x : Date) :
    x ∈ month_loop y m ↔ x.year = y ∧ m ≤ x.month ∧ x.month ≤ 12 ∧ 1 ≤ x.day
      ∧ x.day ≤ days_in_month y x.month := by
  refine ⟨mem_month_loop y m x, ?_⟩
  induction m using month_loop.induct y with
  | case1 m h ih =>
    rintro ⟨a, b, c, e, f⟩
    rw [month_loop, if_pos h, List.mem_append]
    by_cases hm : x.month = m
    · left
      rw [hm] at f
      rw [if_neg (by omega)]
      exact (mem_day_loop_iff y m 1 _ x).mpr ⟨a, hm, e, f⟩
    · right
      exact ih ⟨a, by omega, c, e, f⟩
  | case2 m h =>
    rintro ⟨_, b, c, _⟩
    omega

theorem mem_years_dates_iff (y until_ : Int) (x : Date) :
    x ∈ years_dates y until_ ↔ y ≤ x.year ∧ x.year ≤ until_ ∧ 1 ≤ x.month ∧ x.month ≤ 12
      ∧ 1 ≤ x.day ∧ x.day ≤ days_in_month x.year x.month := by
  induction y, until_ using years_dates.induct with
  | case1 y until_ h ih =>
    rw [years_dates, if_pos h, List.mem_append, ih, mem_month_loop_iff]
    constructor
    · rintro (⟨a, b, c, e, f⟩ | ⟨a, b, c, e, f, g⟩)
      · rw [a]
        exact ⟨le_refl _, h, b, c, e, f⟩
      · exact ⟨by omega, b, c, e, f, g⟩
    · rintro ⟨a, b, c, e, f, g⟩
      by_cases hy : x.year = y
      · left
        rw [hy] at g
        exact ⟨hy, c, e, f, g⟩
      · right
        exact ⟨by omega, b, c, e, f, g⟩
  | case2 y until_ h =>
    rw [years_dates, if_neg h]
    simp only [List.not_mem_nil, false_iff]
    rintro ⟨a, b, _⟩
    omega

theorem calc_sun_time_N_closed (y m d : Int) (hy : 0 ≤ y) (h1 : 1 ≤ m) (h2 : m ≤ 12) :
    calc_sun_time_N y m d =
      275 * m / 9 - (m + 9) / 12 * (1 + (y % 4 + 2) / 3) + d - 30 := by
  unfold calc_sun_time_N
  simp only
  rw [Int.tdiv_eq_ediv (a := 275 * m) (by omega) (by decide)]
  rw [Int.tdiv_eq_ediv (a := m + 9) (by omega) (by decide)]
  rw [Int.tdiv_eq_ediv (a := y) (by omega) (by decide)]
  rw [Int.fdiv_eq_ediv _ (by decide)]
  have : y - 4 * (y / 4) = y % 4 := by omega
  rw [this]

theorem ordinal_in_year_closed (y m d : Int) (h1 : 1 ≤ m) (h2 : m ≤ 12) :
    ordinal_in_year y m d =
      d + (if m = 1 then 0 else if m = 2 then 31 else if m = 3 then 59
        else if m = 4 then 90 else if m = 5 then 120 else if m = 6 then 151
        else if m = 7 then 181 else if m = 8 then 212 else if m = 9 then 243
        else if m = 10 then 273 else if m = 11 then 304 else 334) := by
  have hcases : m = 1 ∨ m = 2 ∨ m = 3 ∨ m = 4 ∨ m = 5 ∨ m = 6 ∨ m = 7
        ∨ m = 8 ∨ m = 9 ∨ m = 10 ∨ m = 11 ∨ m = 12 := by omega
  unfold ordinal_in_year
  rcases hcases with h | h | h | h | h | h | h | h | h | h | h | h <;> subst h <;>
    simp [List.range_succ, days_in_month_february, days_in_month_values] <;> omega

/-- For a date the program generates in a year from 1900 on, the day of the
year `N` of `calc_sun_time` is the ordinal of the date in the program's
enumeration, plus one from March on in a year divisible by 4. -/
theorem calc_sun_time_N_vs_ordinal (y m d : Int) (hy : 1900 ≤ y) (h1 : 1 ≤ m) (h2 : m ≤ 12) :
    calc_sun_time_N y m d =
      ordinal_in_year y m d + (if y % 4 = 0 ∧ 3 ≤ m then 1 else 0) := by
  rw [calc_sun_time_N_closed y m d (by omega) h1 h2, ordinal_in_year_closed y m d h1 h2]
  have hcases : m = 1 ∨ m = 2 ∨ m = 3 ∨ m = 4 ∨ m = 5 ∨ m = 6 ∨ m = 7
        ∨ m = 8 ∨ m = 9 ∨ m = 10 ∨ m = 11 ∨ m = 12 := by omega
  rcases hcases with h | h | h | h | h | h | h | h | h | h | h | h <;> subst h <;>
    simp <;> (try split_ifs) <;> omega

theorem rational_ops_exact (sin cos tan asin acos atan : ℚ → ℚ) :
    ExactOnIntegers (rational_ops sin cos tan asin acos atan) where
  add_ofInt := fun a b => by simp [rational_ops]
  sub_ofInt := fun a b => by simp [rational_ops]
  mul_ofInt := fun a b => by simp [rational_ops]
  floor_ofInt := fun a => by simp [rational_ops]
  floor_div_three := fun a => by
    have h := Rat.floor_intCast_div_natCast a 3
    simp only [rational_ops, Int.fdiv_eq_ediv a (show (0 : Int) ≤ 3 by decide)]
    congr 1

/-- The day of the year computed in `double` by `calc_sun_time` is the
conversion of the integer `calc_sun_time_N`, for every carrier whose
arithmetic is exact on whole numbers. -/
theorem calc_sun_time_locals_N {F : Type} (D : DoubleOps F) (hD : ExactOnIntegers D)
    (year month day : Int) (lat lng : F) (localOffset daylightSavings settingTime : Int) :
    (calc_sun_time_locals D year month day lat lng localOffset daylightSavings settingTime).N
      = D.ofInt (calc_sun_time_N year month day) := by
  simp only [calc_sun_time_locals, calc_sun_time_N, hD.floor_ofInt, hD.mul_ofInt,
    hD.sub_ofInt, hD.add_ofInt, hD.floor_div_three]

/-- For the years 1900 to 5000000 no value computed inside `day_of_week`
leaves the range of a 32-bit `int`, so the C arithmetic is the arithmetic of
integers there. -/
theorem day_of_week_no_overflow (y m d : Int) (hy1 : 1900 ≤ y) (hy2 : y ≤ 5000000)
    (hm1 : 1 ≤ m) (hm2 : m ≤ 12) (hd1 : 0 ≤ d) (hd2 : d ≤ 31) :
    ∀ v ∈ day_of_week_intermediates y m d, -2147483648 ≤ v ∧ v ≤ 2147483647 := by
  have hj := julian_day_eq y m d (by omega) hm1 hm2
  have hw := day_of_week_eq y m d hy1 hm1 hm2 hd1
  have ha : Int.tdiv (14 - m) 12 = (14 - m) / 12 :=
    Int.tdiv_eq_ediv (by omega) (by decide)
  have h5 := Int.tdiv_eq_ediv (a := 153 * (m + 12 * ((14 - m) / 12) - 3) + 2) (b := 5)
    (by omega) (by decide)
  have h4 := Int.tdiv_eq_ediv (a := y + 4800 - (14 - m) / 12) (b := 4) (by omega) (by decide)
  have h100 := Int.tdiv_eq_ediv (a := y + 4800 - (14 - m) / 12) (b := 100)
    (by omega) (by decide)
  have h400 := Int.tdiv_eq_ediv (a := y + 4800 - (14 - m) / 12) (b := 400)
    (by omega) (by decide)
  intro v hv
  simp only [day_of_week_intermediates, ha, h5, h4, h100, h400, hw, hj, List.mem_cons,
    List.mem_singleton, List.not_mem_nil, or_false] at hv
  rcases hv with h | h | h | h | h | h | h | h | h | h | h | h | h | h | h | h | h | h | h
    | h | h <;> subst h <;> omega

theorem trunc_rat_eq_c_int (q : ℚ) : trunc_rat q = (c_int q : ℚ) := by
  unfold trunc_rat c_int
  split_ifs <;> rfl

/-- With every `sqlite3` call succeeding, a first year in the 32-bit range and
a last year below `INT_MAX`, the loop over years returns 1 once it may run
for `until - y + 1` iterations, having built the records of `years_dates`. -/
theorem year_loop_returns (db : SqliteResults) (hbegin : ∀ y, db.begin_ok y = true)
    (hcommit : ∀ y, db.commit_ok y = true) (until_ : Int) (hu : until_ < 2147483647) :
    ∀ (fuel : Nat) (y : Int), -2147483648 ≤ y → (until_ + 1 - y).toNat ≤ fuel →
      (year_loop db fuel y until_).rc = some 1
        ∧ (year_loop db fuel y until_).records = years_dates y until_ := by
  intro fuel
  induction fuel with
  | zero =>
    intro y _ hf
    have hlt : ¬ y ≤ until_ := by omega
    rw [years_dates, if_neg hlt]
    simp only [year_loop, if_neg hlt, and_self]
  | succ n ih =>
    intro y hy hf
    by_cases hle : y ≤ until_
    · have hw : wrap32 (y + 1) = y + 1 := wrap32_eq_self _ (by omega) (by omega)
      obtain ⟨h1, h2⟩ := ih (y + 1) (by omega) (by omega)
      rw [years_dates, if_pos hle]
      simp only [year_loop, if_pos hle, hbegin y, hcommit y, if_true, hw, h1, h2, and_self]
    · rw [years_dates, if_neg hle]
      simp only [year_loop, if_neg hle, and_self]

/-- With the last year `INT_MAX` the loop condition `y <= until` holds for
every value of the 32-bit counter, so the loop has not returned after any
number of iterations when the `sqlite3` calls succeed. -/
theorem year_loop_int_max_runs (fuel : Nat) :
    ∀ y : Int, y ≤ 2147483647 → (year_loop sqlite_all_ok fuel y 2147483647).rc = none := by
  induction fuel with
  | zero =>
    intro y hy
    simp only [year_loop, if_pos hy]
  | succ n ih =>
    intro y hy
    have h := ih (wrap32 (y + 1)) (wrap32_range (y + 1)).2
    simp only [year_loop, if_pos hy, show sqlite_all_ok.begin_ok y = true from rfl,
      show sqlite_all_ok.commit_ok y = true from rfl, if_true, h]

/-- C1, as stated: the claim fails at `from = until = 2147483647` (`INT_MAX`),
where it gives 365 records: with every `sqlite3` call succeeding,
`insert_entries` has not returned after any number of iterations of its loop
over years and has built 730 records after two of them.  It also fails when
`sqlite3_open` fails: for `from = until = 2023` the function returns 0 and
builds no record. -/
theorem insert_entries_not_365 :
    (¬ ∃ fuel : Nat, (insert_entries sqlite_all_ok fuel 2147483647 2147483647).rc ≠ none)
    ∧ (insert_entries sqlite_all_ok 2 2147483647 2147483647).records.length = 730
    ∧ 365 * max 0 ((2147483647 : Int) - 2147483647 + 1) = 365
    ∧ (insert_entries sqlite_open_fails 1 2023 2023).rc = some 0
    ∧ (insert_entries sqlite_open_fails 1 2023 2023).records = [] := by
  refine ⟨?_, ?_, by decide, ?_, ?_⟩
  · rintro ⟨fuel, h⟩
    apply h
    have hr := year_loop_int_max_runs fuel 2147483647 (le_refl _)
    simpa [insert_entries, sqlite_all_ok] using hr
  · have h1 := month_loop_length 2147483647
    have h2 := month_loop_length (wrap32 (2147483647 + 1))
    have e : (insert_entries sqlite_all_ok 2 2147483647 2147483647).records
        = month_loop 2147483647 1 ++ (month_loop (wrap32 (2147483647 + 1)) 1 ++ []) := by
      simp [insert_entries, sqlite_all_ok, year_loop, wrap32]
    rw [e, List.length_append, List.length_append, List.length_nil]
    omega
  · simp [insert_entries, sqlite_open_fails]
  · simp [insert_entries, sqlite_open_fails]

/-- C1, amended: for all 32-bit integers `from` and `until` with `until` below
2147483647 (`INT_MAX`), when `sqlite3_open`, `sqlite3_prepare` and every
`BEGIN` and `COMMIT TRANSACTION` succeed, `insert_entries` returns 1 once its
loop over years may run for `until - from + 1` iterations, and the dates for
which it has built a record are exactly the dates of the triple loop (year in
`from..until`, month in 1..12, day in `1..days_in_month year month`), there
are `365 * max 0 (until - from + 1)` of them, they are strictly ascending in
the lexicographic order on (year, month, day), and the sequence is empty
exactly when `from > until`. -/
theorem insert_entries_dates_count_and_order (db : SqliteResults) (fuel : Nat)
    (from_ until_ : Int) (hopen : db.open_ok = true) (hprepare : db.prepare_ok = true)
    (hbegin : ∀ y, db.begin_ok y = true) (hcommit : ∀ y, db.commit_ok y = true)
    (hfrom : -2147483648 ≤ from_) (huntil : until_ < 2147483647)
    (hfuel : (until_ - from_ + 1).toNat ≤ fuel) :
    (insert_entries db fuel from_ until_).rc = some 1
    ∧ ((insert_entries db fuel from_ until_).records.length : Int)
        = 365 * max 0 (until_ - from_ + 1)
    ∧ List.Pairwise date_lt (insert_entries db fuel from_ until_).records
    ∧ (∀ x : Date, x ∈ (insert_entries db fuel from_ until_).records ↔
        (from_ ≤ x.year ∧ x.year ≤ until_ ∧ 1 ≤ x.month ∧ x.month ≤ 12
          ∧ 1 ≤ x.day ∧ x.day ≤ days_in_month x.year x.month))
    ∧ (until_ < from_ ↔ (insert_entries db fuel from_ until_).records = []) := by
  obtain ⟨hrc, hrec⟩ := year_loop_returns db hbegin hcommit until_ huntil fuel from_ hfrom
    (by omega)
  have e : insert_entries db fuel from_ until_ = year_loop db fuel from_ until_ := by
    simp only [insert_entries, hopen, hprepare, if_true]
  rw [e, hrec]
  refine ⟨hrc, years_dates_length from_ until_, years_dates_pairwise from_ until_,
    mem_years_dates_iff from_ until_, ?_⟩
  have h := years_dates_length from_ until_
  constructor
  · intro hlt
    rw [years_dates, if_neg (by omega)]
  · intro he
    rw [he] at h
    simp only [List.length_nil, Nat.cast_zero] at h
    omega

/-- Instance of C1, amended, for `from = until = 2023` with every `sqlite3`
call succeeding and one iteration allowed: 365 records. -/
theorem insert_entries_dates_count_and_order_witness :
    sqlite_all_ok.open_ok = true ∧ sqlite_all_ok.prepare_ok = true
    ∧ (∀ y, sqlite_all_ok.begin_ok y = true) ∧ (∀ y, sqlite_all_ok.commit_ok y = true)
    ∧ (-2147483648 : Int) ≤ 2023 ∧ (2023 : Int) < 2147483647
    ∧ ((2023 : Int) - 2023 + 1).toNat ≤ 1
    ∧ (insert_entries sqlite_all_ok 1 2023 2023).rc = some 1
    ∧ ((insert_entries sqlite_all_ok 1 2023 2023).records.length : Int)
        = 365 * max 0 ((2023 : Int) - 2023 + 1) :=
  ⟨rfl, rfl, fun _ => rfl, fun _ => rfl, by decide, by decide, by decide,
    (insert_entries_dates_count_and_order sqlite_all_ok 1 2023 2023 rfl rfl (fun _ => rfl)
      (fun _ => rfl) (by decide) (by decide) (by decide)).1,
    (insert_entries_dates_count_and_order sqlite_all_ok 1 2023 2023 rfl rfl (fun _ => rfl)
      (fun _ => rfl) (by decide) (by decide) (by decide)).2.1⟩

/-- C4: for all integers `year` and `month`, `days_in_month year month` is one
of 28, 29, 30, 31 exactly when `month` is in 1..12, and is the failure value
0 exactly when `month` is outside 1..12. -/
theorem days_in_month_range (year month : Int) :
    ((1 ≤ month ∧ month ≤ 12) ↔
        (days_in_month year month = 28 ∨ days_in_month year month = 29
          ∨ days_in_month year month = 30 ∨ days_in_month year month = 31))
    ∧ ((month < 1 ∨ month > 12) ↔ days_in_month year month = 0) := by
  by_cases h : 1 ≤ month ∧ month ≤ 12
  · have hv := days_in_month_values year month h.1 h.2
    have h3 : days_in_month year month = 28 ∨ days_in_month year month = 30
        ∨ days_in_month year month = 31 := by
      rw [hv]
      split_ifs <;> simp
    constructor
    · constructor
      · intro _
        omega
      · intro _
        exact h
    · constructor
      · intro h'
        omega
      · intro h'
        omega
  · have h0 : days_in_month year month = 0 := by
      unfold days_in_month
      rw [if_pos (by omega)]
    constructor
    · constructor
      · intro h'
        exact absurd h' h
      · intro h'
        omega
    · constructor
      · intro _
        exact h0
      · intro _
        omega

/-- C5: for every integer `year`, also a negative one under C's truncating
remainder, the leap-year test `year%4==0 && year%100!=0 && year%400==0` of
`days_in_month` fails, and `days_in_month year 2` is 28. -/
theorem days_in_month_february_always_28 (year : Int) :
    ¬ (Int.tmod year 4 = 0 ∧ Int.tmod year 100 ≠ 0 ∧ Int.tmod year 400 = 0)
    ∧ days_in_month year 2 = 28 := by
  refine ⟨?_, days_in_month_february year⟩
  rintro ⟨_, h100, h400⟩
  apply h100
  have h : (400 : Int) ∣ year := Int.dvd_of_tmod_eq_zero h400
  exact Int.tmod_eq_zero_of_dvd (Dvd.dvd.trans (by decide) h)

/-- C6: for every valid Gregorian date from the year 1900 on, `day_of_week` is
the Julian day number of the date modulo 7, a value in 0..6.  The Julian day
number formula gives 2451545 for 2000-01-01 and grows by one from each valid
date to the next calendar day (which is again a valid date), so it is the
Julian day number; `day_of_week 2000 1 1` is 5 (Saturday, with 0 for Monday),
and the value for the next calendar day is `(day_of_week + 1) % 7`, also
across month and year ends. -/
theorem day_of_week_julian_day_mod_7 (y m d : Int) (hy : 1900 ≤ y)
    (hv : valid_gregorian y m d) :
    julian_day 2000 1 1 = 2451545
    ∧ day_of_week 2000 1 1 = 5
    ∧ day_of_week y m d = julian_day y m d % 7
    ∧ 0 ≤ day_of_week y m d ∧ day_of_week y m d ≤ 6
    ∧ valid_gregorian (next_day ⟨y, m, d⟩).year (next_day ⟨y, m, d⟩).month
        (next_day ⟨y, m, d⟩).day
    ∧ julian_day (next_day ⟨y, m, d⟩).year (next_day ⟨y, m, d⟩).month
        (next_day ⟨y, m, d⟩).day = julian_day y m d + 1
    ∧ day_of_week (next_day ⟨y, m, d⟩).year (next_day ⟨y, m, d⟩).month
        (next_day ⟨y, m, d⟩).day = (day_of_week y m d + 1) % 7 := by
  have hnv := next_day_valid y m d hv
  have hn := julian_day_next y m d hy hv
  have hny : 1900 ≤ (next_day ⟨y, m, d⟩).year := by
    unfold next_day
    simp only
    split_ifs
    · exact hy
    · exact hy
    · show 1900 ≤ y + 1
      omega
  have h1 := day_of_week_eq y m d hy hv.1 hv.2.1 (by have := hv.2.2.1; omega)
  have h2 := day_of_week_eq (next_day ⟨y, m, d⟩).year (next_day ⟨y, m, d⟩).month
    (next_day ⟨y, m, d⟩).day hny hnv.1 hnv.2.1 (by have := hnv.2.2.1; omega)
  refine ⟨by decide, by decide, h1, ?_, ?_, hnv, hn, ?_⟩
  · omega
  · omega
  · rw [h2, hn, h1]
    omega

/-- Instance of C6 at the year end 1999-12-31 (a Friday) to 2000-01-01. -/
theorem day_of_week_julian_day_mod_7_witness :
    (1900 : Int) ≤ 1999 ∧ valid_gregorian 1999 12 31
    ∧ (julian_day 2000 1 1 = 2451545
      ∧ day_of_week 2000 1 1 = 5
      ∧ day_of_week 1999 12 31 = julian_day 1999 12 31 % 7
      ∧ 0 ≤ day_of_week 1999 12 31 ∧ day_of_week 1999 12 31 ≤ 6
      ∧ valid_gregorian (next_day ⟨1999, 12, 31⟩).year (next_day ⟨1999, 12, 31⟩).month
          (next_day ⟨1999, 12, 31⟩).day
      ∧ julian_day (next_day ⟨1999, 12, 31⟩).year (next_day ⟨1999, 12, 31⟩).month
          (next_day ⟨1999, 12, 31⟩).day = julian_day 1999 12 31 + 1
      ∧ day_of_week (next_day ⟨1999, 12, 31⟩).year (next_day ⟨1999, 12, 31⟩).month
          (next_day ⟨1999, 12, 31⟩).day = (day_of_week 1999 12 31 + 1) % 7) :=
  ⟨by decide, by decide, day_of_week_julian_day_mod_7 1999 12 31 (by decide) (by decide)⟩

theorem dst_window_iff (y m d s e : Int) :
    (¬ date_lt ⟨y, m, d⟩ ⟨y, 3, s⟩ ∧ date_lt ⟨y, m, d⟩ ⟨y, 10, e⟩)
      ↔ ((m = 3 ∧ s ≤ d) ∨ (3 < m ∧ m < 10) ∨ (m = 10 ∧ d < e)) := by
  unfold date_lt
  dsimp only
  omega

/-- C8, as stated: in the year 6000000, which `main` accepts, the 32-bit sum
of `day_of_week` has left the range of `int`: `day_of_week` of 25 March is
-6, the last day of March with `day_of_week = 0` is the 31st, and
`is_central_europe_dst` is already 1 on the 25th, a generated date before
that Monday. -/
theorem is_central_europe_dst_6000000_03_25 :
    (1900 : Int) ≤ 6000000 ∧ (1 : Int) ≤ 25 ∧ (25 : Int) ≤ days_in_month 6000000 3
    ∧ day_of_week_int32 6000000 3 25 = -6
    ∧ day_of_week_int32 6000000 3 31 = 0
    ∧ last_monday 6000000 3 = 31
    ∧ date_lt ⟨6000000, 3, 25⟩ ⟨6000000, 3, last_monday 6000000 3⟩
    ∧ is_central_europe_dst 6000000 3 25 = 1
    ∧ is_central_europe_dst 6000000 3 25 ≠
        (if ¬ date_lt ⟨6000000, 3, 25⟩ ⟨6000000, 3, last_monday 6000000 3⟩
            ∧ date_lt ⟨6000000, 3, 25⟩ ⟨6000000, 10, last_monday 6000000 10⟩ then 1 else 0) := by
  decide

/-- C8, amended: for every year from 1900 to 5874897 (the years in which the
Julian day number fits a 32-bit `int`) and every date the program generates
(month in 1..12, day in `1..days_in_month year month`),
`is_central_europe_dst` is 1 exactly when the date lies from the last Monday
of March (inclusive) to the last Monday of October (exclusive), and 0
otherwise; each of the two Mondays is a day 25..31 of its month with
`day_of_week = 0` and no later day of the month has `day_of_week = 0`. -/
theorem is_central_europe_dst_monday_window (y m d : Int) (hy : 1900 ≤ y)
    (hy2 : y ≤ 5874897) (hm1 : 1 ≤ m) (hm2 : m ≤ 12) (hd1 : 1 ≤ d)
    (hd2 : d ≤ days_in_month y m) :
    (25 ≤ last_monday y 3 ∧ last_monday y 3 ≤ 31
      ∧ day_of_week_int32 y 3 (last_monday y 3) = 0
      ∧ ∀ k : Int, last_monday y 3 < k → k ≤ 31 → day_of_week_int32 y 3 k ≠ 0)
    ∧ (25 ≤ last_monday y 10 ∧ last_monday y 10 ≤ 31
      ∧ day_of_week_int32 y 10 (last_monday y 10) = 0
      ∧ ∀ k : Int, last_monday y 10 < k → k ≤ 31 → day_of_week_int32 y 10 k ≠ 0)
    ∧ is_central_europe_dst y m d =
        (if ¬ date_lt ⟨y, m, d⟩ ⟨y, 3, last_monday y 3⟩
            ∧ date_lt ⟨y, m, d⟩ ⟨y, 10, last_monday y 10⟩ then 1 else 0) := by
  have hs3 := last_monday_spec y 3 hy hy2 (by decide) (by decide)
  have hs10 := last_monday_spec y 10 hy hy2 (by decide) (by decide)
  refine ⟨hs3, hs10, ?_⟩
  have hv := days_in_month_values y m hm1 hm2
  have hd31 : d ≤ 31 := by
    rw [hv] at hd2
    split_ifs at hd2 <;> omega
  simp only [dst_window_iff]
  by_cases h3 : m = 3
  · subst h3
    rw [dst_march y d hy hy2 hd1 hd31]
    split_ifs <;> omega
  · by_cases h10 : m = 10
    · subst h10
      rw [dst_october y d hy hy2 hd1 hd31]
      split_ifs <;> omega
    · unfold is_central_europe_dst
      simp only
      split_ifs <;> omega

/-- Instance of C8, amended, at 2023-03-27, the last Monday of March 2023. -/
theorem is_central_europe_dst_monday_window_witness :
    (1900 : Int) ≤ 2023 ∧ (2023 : Int) ≤ 5874897 ∧ (1 : Int) ≤ 3 ∧ (3 : Int) ≤ 12
    ∧ (1 : Int) ≤ 27 ∧ (27 : Int) ≤ days_in_month 2023 3
    ∧ is_central_europe_dst 2023 3 27 =
        (if ¬ date_lt ⟨2023, 3, 27⟩ ⟨2023, 3, last_monday 2023 3⟩
            ∧ date_lt ⟨2023, 3, 27⟩ ⟨2023, 10, last_monday 2023 10⟩ then 1 else 0) :=
  ⟨by decide, by decide, by decide, by decide, by decide, by decide,
    (is_central_europe_dst_monday_window 2023 3 27 (by decide) (by decide) (by decide)
      (by decide) (by decide) (by decide)).2.2⟩

/-- On the last Sunday of March of a year from 1900 to 5874897,
`is_central_europe_dst` is 1 only when that Sunday is the 31st (the last
Monday is then the 25th); in every other year it is 0 on that Sunday. -/
theorem dst_on_last_sunday_of_march (y : Int) (hy : 1900 ≤ y) (hy2 : y ≤ 5874897) :
    is_central_europe_dst y 3 (last_sunday y 3) =
      if last_sunday y 3 = 31 then 1 else 0 := by
  obtain ⟨h0, hs⟩ := day_of_week_shift y 3 hy (by decide) (by decide)
  have h31 := hs 31 (by decide)
  have hl := last_sunday_spec y 3 hy (by decide) (by decide)
  have e31 := day_of_week_int32_eq y 3 31 hy hy2 (by decide) (by decide) (by decide)
    (by decide)
  rw [dst_march y _ hy hy2 (by omega) hl.2.1]
  unfold last_monday last_sunday
  rw [e31]
  split_ifs <;> omega

/-- C2: 26 March 2023 is the last Sunday of March 2023 (`day_of_week` 6, no
later day of the month has it), and `is_central_europe_dst 2023 3 26` is 0;
the function returns 1 from 27 March 2023, the last Monday, on. -/
theorem is_central_europe_dst_2023_03_26 :
    day_of_week 2023 3 26 = 6
    ∧ last_sunday 2023 3 = 26
    ∧ is_central_europe_dst 2023 3 26 = 0
    ∧ is_central_europe_dst 2023 3 27 = 1 := by
  decide

/-- C9, as stated: 1 March 1900 is a date the program generates, the day of
the year `N` that `calc_sun_time` computes for it is 61, and its ordinal in
the program's enumeration is 60, so the two differ. -/
theorem calc_sun_time_N_1900_03_01 :
    (1900 : Int) ≤ 1900 ∧ (1 : Int) ≤ 3 ∧ (3 : Int) ≤ 12 ∧ (1 : Int) ≤ 1
    ∧ (1 : Int) ≤ days_in_month 1900 3
    ∧ calc_sun_time_N 1900 3 1 = 61
    ∧ ordinal_in_year 1900 3 1 = 60
    ∧ calc_sun_time_N 1900 3 1 ≠ ordinal_in_year 1900 3 1 := by
  decide

/-- C9, amended: for every year from 1900 on, month in 1..12 and day (in
particular every day in `1..days_in_month year month`), when the year is not
divisible by 4 or the month is January or February, the day of the year `N`
of `calc_sun_time` is the ordinal of the date in the program's enumeration:
`day` plus the sum of `days_in_month year k` for `k` in `1..month-1`. -/
theorem calc_sun_time_N_eq_ordinal (y m d : Int) (hy : 1900 ≤ y) (hm1 : 1 ≤ m)
    (hm2 : m ≤ 12) (hleap : y % 4 ≠ 0 ∨ m ≤ 2) :
    calc_sun_time_N y m d = ordinal_in_year y m d := by
  rw [calc_sun_time_N_vs_ordinal y m d hy hm1 hm2, if_neg (by omega)]
  omega

/-- Instance of C9, amended, at 31 December 2023, the 365th day. -/
theorem calc_sun_time_N_eq_ordinal_witness :
    (1900 : Int) ≤ 2023 ∧ (1 : Int) ≤ 12 ∧ (12 : Int) ≤ 12
    ∧ ((2023 : Int) % 4 ≠ 0 ∨ (12 : Int) ≤ 2)
    ∧ calc_sun_time_N 2023 12 31 = ordinal_in_year 2023 12 31
    ∧ ordinal_in_year 2023 12 31 = 365 :=
  ⟨by decide, by decide, by decide, by decide,
    calc_sun_time_N_eq_ordinal 2023 12 31 (by decide) (by decide) (by decide) (by decide),
    by decide⟩

/-- C10, as the specification pairs the formulas: on the source's formulas for
15 June 2023 at the configured location, the pairing fails, because the
sunrise mode computes `H = 360 - (180/PI)*acos(cosH)`. -/
theorem pairing_as_specified_fails :
    ¬ pairing_as_specified formula_ops 2023 6 15 (LATITUDE formula_ops)
        (LONGITUDE formula_ops) 1 1 := by
  unfold pairing_as_specified
  rintro ⟨_, h, _⟩
  simp [calc_sun_time_locals, spec_hour_angle, formula_ops] at h

/-- C10, amended: for every date, location and offset, and whatever the
`double` operations are, the sunrise mode (`settingTime = -1`, as
`get_sunrise` calls `calc_sun_time`) uses `t = N + (6 - lngHour)/24` with
`H = 360 - (180/PI)*acos(cosH)`, and the sunset mode (`settingTime = 0`, as
`get_sunset` calls it) uses `t = N + (18 - lngHour)/24` with
`H = (180/PI)*acos(cosH)`. -/
theorem rise_set_formula_pairing {F : Type} (D : DoubleOps F) (year month day : Int)
    (lat lng : F) (offset dst : Int) :
    (calc_sun_time_locals D year month day lat lng offset dst (-1)).t
        = spec_approx_time D (calc_sun_time_locals D year month day lat lng offset dst (-1)).N
            (calc_sun_time_locals D year month day lat lng offset dst (-1)).lngHour 6
    ∧ (calc_sun_time_locals D year month day lat lng offset dst (-1)).H_deg
        = spec_hour_angle_complement D
            (calc_sun_time_locals D year month day lat lng offset dst (-1)).cosH
    ∧ (calc_sun_time_locals D year month day lat lng offset dst 0).t
        = spec_approx_time D (calc_sun_time_locals D year month day lat lng offset dst 0).N
            (calc_sun_time_locals D year month day lat lng offset dst 0).lngHour 18
    ∧ (calc_sun_time_locals D year month day lat lng offset dst 0).H_deg
        = spec_hour_angle D (calc_sun_time_locals D year month day lat lng offset dst 0).cosH
    ∧ (get_sunrise D year month day lat lng offset dst).tm_hour
        = D.modf_int (D.fmod (D.add (D.ofInt 24)
            (calc_sun_time_locals D year month day lat lng offset dst (-1)).result)
            (D.ofInt 24))
    ∧ (get_sunset D year month day lat lng offset dst).tm_hour
        = D.modf_int (D.fmod (D.add (D.ofInt 24)
            (calc_sun_time_locals D year month day lat lng offset dst 0).result)
            (D.ofInt 24)) := by
  refine ⟨?_, ?_, ?_, ?_, rfl, rfl⟩
  · simp [calc_sun_time_locals, spec_approx_time]
  · simp [calc_sun_time_locals, spec_hour_angle_complement, spec_hour_angle]
  · simp [calc_sun_time_locals, spec_approx_time]
  · simp [calc_sun_time_locals, spec_hour_angle]

end SolarCalculator
